import Mathlib

/-!
Verification development for the Excel-to-LLM context feeder core
(`src/utils.py`, `src/converter.py`): data model, chunking arithmetic,
template substitution, summary statistics, and the two public pipeline
operations, with theorems settling the specification claims.
-/

namespace ExcelLLM

/-- A cell of a loaded table.  `none` models a cell that is missing in the
source (a pandas null), `some s` a present cell rendered as text.  Dtype
inference of the external table library is not modelled: every present
cell carries its textual payload. -/
abbrev Cell := Option String

/-- A loaded sheet: named columns in declared order and a row list; each
row holds one cell per column (`pandas.DataFrame` after loading). -/
structure Table where
  header : List String
  rows : List (List Cell)
deriving Repr, DecidableEq

/-- pandas `df.empty`: true when the frame has zero rows or zero columns. -/
def Table.isEmpty (t : Table) : Bool :=
  t.rows.isEmpty || t.header.isEmpty

/-- pandas `df.fillna("")`: every missing cell becomes the empty text. -/
def Table.fillna (t : Table) : Table :=
  { t with rows := t.rows.map (fun r => r.map (fun c => some (c.getD ""))) }

/-- Error conditions of the pipeline.  The Python code raises exceptions
carrying these distinguishable messages (the entry points re-raise them
wrapped in a generic `Exception` with a prefixed message). -/
inductive ConvError
  /-- "No sheets could be read from the Excel file" (`ValueError`). -/
  | noSheetsLoaded
  /-- "Unsupported output format: ..." (`ValueError`), carrying the format
  string the caller passed. -/
  | unsupportedFormat (fmt : String)
  /-- "range() arg 3 must not be zero": the `ValueError` Python raises when
  `chunk_df` iterates `range(0, len(df), 0)`. -/
  | rangeStepZero
  /-- The `UnboundLocalError` raised inside `excel_to_chunked_text`: the
  loop target at converter.py:182 (`for i, chunk_df in enumerate(df_chunks)`)
  makes `chunk_df` a local name of the entire function, so the call
  `df_chunks = chunk_df(df, chunk_size)` at converter.py:180 reads an
  unbound local and raises on the first non-empty sheet. -/
  | unboundLocalChunkDf
  /-- The single-sheet read raised because the named sheet does not exist;
  the exception escapes the loader. -/
  | sheetReadError (nm : String)
deriving Repr, DecidableEq

/-! ## Chunker (`utils.chunk_df`) -/

/-- Row slices of size `k` taken from the front, as produced by
`for i in range(0, len(l), k)` with positive step `k`; `fuel` bounds the
recursion and is instantiated with the list length. -/
def chunksOfPos (k : Nat) : Nat → List α → List (List α)
  | _, [] => []
  | 0, _ :: _ => []
  | fuel + 1, a :: l => (a :: l).take k :: chunksOfPos k fuel ((a :: l).drop k)

/-- `utils.chunk_df`: returns `[df]` when the frame fits in one chunk,
otherwise slices `df.iloc[i:i+chunk_size]` for `i in
range(0, len(df), chunk_size)`.  A zero step makes `range` raise, a
negative step yields an empty `range` and hence an empty chunk list. -/
def chunk_df (df : Table) (chunk_size : Int) : Except ConvError (List Table) :=
  if (df.rows.length : Int) ≤ chunk_size then .ok [df]
  else if chunk_size = 0 then .error .rangeStepZero
  else if chunk_size < 0 then .ok []
  else .ok ((chunksOfPos chunk_size.toNat df.rows.length df.rows).map
    (fun rs => { header := df.header, rows := rs }))

/-! ## Template substitution (`utils.format_prompt`) -/

/-- The literal placeholder token of `format_prompt`. -/
def placeholder : List Char := "[formatted_data]".data

/-- Modelled from Python `str.replace` at the fixed nonempty pattern
`placeholder`: a single left-to-right scan; at an occurrence the
replacement is emitted and the scan resumes after the occurrence, never
inside the emitted replacement.  `fuel` bounds the scan and is
instantiated with the scanned length. -/
def replaceFuel (rep : List Char) : Nat → List Char → List Char
  | _, [] => []
  | 0, c :: cs => c :: cs
  | fuel + 1, c :: cs =>
    if placeholder.isPrefixOf (c :: cs) then
      rep ++ replaceFuel rep fuel (cs.drop (placeholder.length - 1))
    else
      c :: replaceFuel rep fuel cs

/-- `str.replace` of the placeholder by `rep` over a character list. -/
def replacePH (rep l : List Char) : List Char :=
  replaceFuel rep l.length l

/-- `utils.format_prompt`: substitutes the data text for every placeholder
occurrence in the template. -/
def format_prompt (data_text : String)
    (prompt_template : String := "Analyze this data: [formatted_data]") : String :=
  ⟨replacePH data_text.data prompt_template.data⟩

/-- Scan deciding whether the placeholder occurs in a character list. -/
def hasPH : List Char → Bool
  | [] => false
  | c :: cs => placeholder.isPrefixOf (c :: cs) || hasPH cs

/-! ### Replacement lemmas -/

theorem replaceFuel_nil (rep : List Char) (fuel : Nat) :
    replaceFuel rep fuel [] = [] := by
  cases fuel <;> rfl

theorem chunksOfPos_nil (k fuel : Nat) :
    chunksOfPos (α := α) k fuel [] = [] := by
  cases fuel <;> rfl

theorem replaceFuel_fuel_irrel (rep : List Char) :
    ∀ (f₁ : Nat) (l : List Char) (f₂ : Nat), l.length ≤ f₁ → l.length ≤ f₂ →
      replaceFuel rep f₁ l = replaceFuel rep f₂ l := by
  intro f₁
  induction f₁ with
  | zero =>
    intro l f₂ h₁ _
    have : l = [] := List.eq_nil_of_length_eq_zero (Nat.le_zero.mp h₁)
    subst this
    rw [replaceFuel_nil, replaceFuel_nil]
  | succ f ih =>
    intro l f₂ h₁ h₂
    cases l with
    | nil => rw [replaceFuel_nil, replaceFuel_nil]
    | cons c cs =>
      cases f₂ with
      | zero => simp at h₂
      | succ g =>
        simp only [replaceFuel]
        by_cases hp : placeholder.isPrefixOf (c :: cs)
        · simp only [hp, if_true]
          have hlen : (cs.drop (placeholder.length - 1)).length ≤ cs.length :=
            by simp [List.length_drop]
          have hcs₁ : cs.length ≤ f := Nat.le_of_succ_le_succ h₁
          have hcs₂ : cs.length ≤ g := Nat.le_of_succ_le_succ h₂
          rw [ih _ g (Nat.le_trans hlen hcs₁) (Nat.le_trans hlen hcs₂)]
        · simp only [hp, Bool.false_eq_true, if_false]
          rw [ih _ g (Nat.le_of_succ_le_succ h₁) (Nat.le_of_succ_le_succ h₂)]

theorem replacePH_cons (rep : List Char) (c : Char) (cs : List Char) :
    replacePH rep (c :: cs) =
      if placeholder.isPrefixOf (c :: cs) then
        rep ++ replacePH rep (cs.drop (placeholder.length - 1))
      else
        c :: replacePH rep cs := by
  show replaceFuel rep (cs.length + 1) (c :: cs) = _
  simp only [replaceFuel]
  by_cases hp : placeholder.isPrefixOf (c :: cs)
  · simp only [hp, if_true, replacePH]
    rw [replaceFuel_fuel_irrel rep cs.length _ (cs.drop (placeholder.length - 1)).length
      (by simp [List.length_drop]) (Nat.le_refl _)]
  · simp only [hp, Bool.false_eq_true, if_false, replacePH]

/-- A scan that sees no occurrence leaves the text unchanged. -/
theorem replacePH_of_hasPH_false (rep : List Char) :
    ∀ l : List Char, hasPH l = false → replacePH rep l = l := by
  intro l
  induction l with
  | nil => intro _; rfl
  | cons c cs ih =>
    intro h
    simp only [hasPH, Bool.or_eq_false_iff] at h
    rw [replacePH_cons, h.1]
    simp only [Bool.false_eq_true, if_false]
    rw [ih h.2]

/-- Replacement at an occurrence sitting at the front of the scan. -/
theorem replacePH_placeholder_append (rep b : List Char) :
    replacePH rep (placeholder ++ b) = rep ++ replacePH rep b := by
  have hph : placeholder = '[' :: placeholder.tail := rfl
  rw [hph, List.cons_append, replacePH_cons]
  have hpre : placeholder.isPrefixOf ('[' :: (placeholder.tail ++ b)) = true := by
    rw [List.isPrefixOf_iff_prefix]
    exact ⟨b, by rw [← List.cons_append, ← hph]⟩
  rw [hpre]
  simp only [if_true]
  have hdrop : (placeholder.tail ++ b).drop (placeholder.length - 1) = b := by
    have : placeholder.length - 1 = placeholder.tail.length := by rfl
    rw [this, List.drop_left]
  rw [hdrop]

/-! ## Formatter (format dispatch and the modelled external serializers) -/

/-- Python `str.lower()` as used on the format argument (ASCII case fold,
matching `Char.toLower`). -/
def strLower (s : String) : String :=
  ⟨s.data.map Char.toLower⟩

/-- Text of a cell after normalization (`fillna` has already made every
cell present wherever this is used; a missing cell renders empty). -/
def cellText (c : Cell) : String :=
  c.getD ""

/-- Modelled external serializer `df.to_csv(index=False, sep=',')`:
header line, then one comma-joined line per row, newline-terminated
(the field quoting of the external library is not modelled). -/
def to_csv (t : Table) : String :=
  String.intercalate "," t.header ++ "\n"
    ++ String.join (t.rows.map (fun r => String.intercalate "," (r.map cellText) ++ "\n"))

/-- Modelled external serializer
`df.to_json(orient='records', indent=2, force_ascii=False)`: an ordered
record per row, column order preserved. -/
def to_json (t : Table) : String :=
  "[" ++ String.intercalate ","
    (t.rows.map (fun r =>
      "\n  \x7b"
        ++ String.intercalate ","
          ((t.header.zip r).map (fun p => "\n    \"" ++ p.1 ++ "\":\"" ++ cellText p.2 ++ "\""))
        ++ "\n  \x7d"))
    ++ "\n]"

/-- Modelled external serializer `df.to_markdown(index=False)`: a pipe
table with a header row and a separator row. -/
def to_markdown (t : Table) : String :=
  "| " ++ String.intercalate " | " t.header ++ " |\n"
    ++ "|" ++ String.join (t.header.map (fun _ => "---|")) ++ "\n"
    ++ String.join
      (t.rows.map (fun r => "| " ++ String.intercalate " | " (r.map cellText) ++ " |\n"))

/-- The inline format dispatch both entry points perform on each table:
compare `output_format.lower()` against the three supported names,
otherwise raise `ValueError("Unsupported output format: ...")`. -/
def renderDispatch (output_format : String) (df : Table) : Except ConvError String :=
  if strLower output_format == "csv" then .ok (to_csv df)
  else if strLower output_format == "json" then .ok (to_json df)
  else if strLower output_format == "markdown" then .ok (to_markdown df)
  else .error (.unsupportedFormat output_format)

/-! ## Summarizer (`utils.get_data_summary`, `utils.format_summary`) -/

/-- The summary dictionary built by `get_data_summary`.  The numeric
section (`describe()` over columns of numeric dtype) depends on the
external library's dtype inference, which this model does not carry:
cells are text, so `select_dtypes(include=['number'])` selects nothing
and the section is absent.  No claim touches the numeric section. -/
structure DataSummary where
  rows : Nat
  columns : Nat
  column_types : List (String × String)
  missing_values : List (String × Nat)
  memory_usage : Nat
deriving Repr, DecidableEq

/-- Number of missing (null) cells of column `i`, as counted by
`df.isnull().sum()` on the table as given (no normalization). -/
def countMissing (t : Table) (i : Nat) : Nat :=
  (t.rows.map (fun r => r.getD i none)).countP (fun c => c.isNone)

/-- `utils.get_data_summary`: row/column counts, per-column dtype label,
per-column null count, and the memory estimate (`memory_usage(deep=True)`
is external pandas accounting, modelled as total cell payload size). -/
def get_data_summary (df : Table) : DataSummary :=
  { rows := df.rows.length
    columns := df.header.length
    column_types := df.header.map (fun nm => (nm, "object"))
    missing_values := (List.range df.header.length).map
      (fun i => (df.header.getD i "", countMissing df i))
    memory_usage :=
      df.rows.foldl (fun acc r => acc + r.foldl (fun a c => a + (cellText c).length) 0) 0 }

/-- Python `f"{n:,}"` digit grouping, applied to the reversed digit list:
a comma after every three digits. -/
def groupRev : Nat → List Char → List Char
  | 0, l => l
  | _, [] => []
  | fuel + 1, l => if l.length ≤ 3 then l else l.take 3 ++ ',' :: groupRev fuel (l.drop 3)

/-- Python `f"{n:,}"`: decimal digits with thousands separators. -/
def commaSep (n : Nat) : String :=
  ⟨(groupRev (toString n).data.length (toString n).data.reverse).reverse⟩

/-- Two-digit zero-padded rendering of a remainder below 100. -/
def pad2 (k : Nat) : String :=
  if k < 10 then "0" ++ toString k else toString k

/-- Python `f"{num/den:.2f}"` modelled in fixed point (the float rounding
of the external runtime is approximated by truncation). -/
def twoDecimals (num den : Nat) : String :=
  toString (num * 100 / den / 100) ++ "." ++ pad2 (num * 100 / den % 100)

/-- `utils.format_summary`: the fixed-layout text block — header line,
row and column counts, memory, column types, columns with a positive
missing count, and (absent here, see `DataSummary`) numeric statistics. -/
def format_summary (summary : DataSummary) : String :=
  String.intercalate "\n"
    (["=== DATA SUMMARY ===",
      "Rows: " ++ commaSep summary.rows,
      "Columns: " ++ toString summary.columns,
      "Memory Usage: " ++ twoDecimals summary.memory_usage 1024 ++ " KB",
      "",
      "Column Types:"]
      ++ summary.column_types.map (fun p => "  " ++ p.1 ++ ": " ++ p.2)
      ++ ["", "Missing Values:"]
      ++ (summary.missing_values.filter (fun p => 0 < p.2)).map
        (fun p => "  " ++ p.1 ++ ": " ++ toString p.2))

/-! ## SheetLoader (the `pd.read_excel` selection logic of both entry
points; the workbook parser itself is the external collaborator) -/

/-- A readable workbook: its sheets in source-declared order.  A name
missing from the list is a sheet `pd.read_excel` raises on. -/
structure Source where
  sheets : List (String × Table)
deriving Repr, DecidableEq

/-- Reading one named sheet from the workbook. -/
def Source.find (src : Source) (nm : String) : Option Table :=
  src.sheets.lookup nm

/-- The `sheet_names` argument: `None`, a single name, or a name list. -/
inductive Selector
  | all
  | one (nm : String)
  | many (nms : List String)
deriving Repr, DecidableEq

/-- Python dict assignment `m[nm] = t`: replaces in place when the key
exists, otherwise appends (insertion order preserved). -/
def dictInsert (m : List (String × Table)) (nm : String) (t : Table) :
    List (String × Table) :=
  if m.any (fun p => p.1 == nm) then
    m.map (fun p => if p.1 == nm then (nm, t) else p)
  else m ++ [(nm, t)]

/-- The list-selector loop of both entry points: each name is read inside
`try`, a failure prints a warning and the name is skipped. -/
def loadMany (src : Source) (nms : List String) : List (String × Table) :=
  nms.foldl
    (fun m nm =>
      match src.find nm with
      | some t => dictInsert m nm t
      | none => m)
    []

/-- Sheet loading as both entry points perform it: all sheets for `None`,
a single read (whose failure escapes) for one name, the warn-and-skip
loop for a list. -/
def loadSheets (src : Source) (sel : Selector) :
    Except ConvError (List (String × Table)) :=
  match sel with
  | .all => .ok src.sheets
  | .one nm =>
    match src.find nm with
    | some t => .ok [(nm, t)]
    | none => .error (.sheetReadError nm)
  | .many nms => .ok (loadMany src nms)

/-- `next((df for df in all_sheets.values() if not df.empty), None)`. -/
def firstNonEmpty (sheets : List (String × Table)) : Option Table :=
  (sheets.find? (fun p => !p.2.isEmpty)).map (fun p => p.2)

/-! ## Pipeline (`converter.excel_to_formatted_text`,
`converter.excel_to_chunked_text`) -/

/-- The per-sheet loop of `excel_to_formatted_text`: skip empty frames,
`fillna("")`, dispatch on the format, and prepend the sheet header. -/
def sheetBlocks (output_format : String) :
    List (String × Table) → Except ConvError (List String)
  | [] => .ok []
  | (sheet_name, df) :: rest =>
    if df.isEmpty then sheetBlocks output_format rest
    else
      match renderDispatch output_format df.fillna with
      | .error e => .error e
      | .ok formatted_data =>
        match sheetBlocks output_format rest with
        | .error e => .error e
        | .ok blocks =>
          .ok (("\n=== SHEET: " ++ sheet_name ++ " ===\n" ++ formatted_data) :: blocks)

/-- `converter.excel_to_formatted_text`: load, fail when nothing loaded,
render the non-empty sheets, join with a blank line, optionally prepend
the summary of the first non-empty sheet (computed on the sheet as
loaded, not on the `fillna` copy), then apply the prompt template. -/
def excel_to_formatted_text (src : Source) (sheet_names : Selector)
    (output_format : String := "csv") (chunk_size : Int := 5000)
    (prompt_template : String := "Analyze this data: [formatted_data]")
    (include_summary : Bool := false) : Except ConvError String :=
  match loadSheets src sheet_names with
  | .error e => .error e
  | .ok all_sheets =>
    if all_sheets.isEmpty then .error .noSheetsLoaded
    else
      match sheetBlocks output_format all_sheets with
      | .error e => .error e
      | .ok all_formatted_data =>
        let combined_data := String.intercalate "\n\n" all_formatted_data
        let with_summary :=
          if include_summary then
            match firstNonEmpty all_sheets with
            | some first_df =>
              format_summary (get_data_summary first_df) ++ "\n\n" ++ combined_data
            | none => combined_data
          else combined_data
        .ok (format_prompt with_summary prompt_template)

/-- The per-sheet loop of `excel_to_chunked_text`: empty frames are
skipped by `if df.empty: continue`, then the loop calls
`chunk_df(df, chunk_size)` at converter.py:180.  That call never
succeeds: the loop target at converter.py:182 —
`for i, chunk_df in enumerate(df_chunks)` — makes `chunk_df` a local
name of the entire function, so line 180 reads an unbound local and
raises `UnboundLocalError` on the first non-empty sheet, before any
chunking, chunk-header rendering or format dispatch
(converter.py:182-204) can run.  The format, bound and template
arguments are in scope but never consumed. -/
def sheetChunks (output_format : String) (chunk_size : Int) (prompt_template : String) :
    List (String × Table) → Except ConvError (List String)
  | [] => .ok []
  | (_, df) :: rest =>
    if df.isEmpty then sheetChunks output_format chunk_size prompt_template rest
    else .error .unboundLocalChunkDf

/-- `converter.excel_to_chunked_text`: load, fail when nothing loaded,
then run the per-sheet chunk loop.  Because that loop raises on the
first non-empty sheet (see `sheetChunks`), the call can only fail or
return the empty sequence (every loaded sheet empty); the
summary-insertion code after the loop (converter.py:206-211) is kept
faithfully but never sees a non-empty `chunks`. -/
def excel_to_chunked_text (src : Source) (sheet_names : Selector)
    (output_format : String := "csv") (chunk_size : Int := 5000)
    (prompt_template : String := "Analyze this data: [formatted_data]")
    (include_summary : Bool := false) : Except ConvError (List String) :=
  match loadSheets src sheet_names with
  | .error e => .error e
  | .ok all_sheets =>
    if all_sheets.isEmpty then .error .noSheetsLoaded
    else
      match sheetChunks output_format chunk_size prompt_template all_sheets with
      | .error e => .error e
      | .ok chunks =>
        if include_summary && !chunks.isEmpty then
          match firstNonEmpty all_sheets with
          | some first_df =>
            .ok (format_prompt (format_summary (get_data_summary first_df)) prompt_template
              :: chunks)
          | none => .ok chunks
        else .ok chunks

/-! ## Claims about template substitution (C4, C9) -/

theorem hasPH_of_isPrefixOf (l : List Char) (h : placeholder.isPrefixOf l = true) :
    hasPH l = true := by
  cases l with
  | nil => exact absurd h (by decide)
  | cons c cs => simp [hasPH, h]

theorem placeholder_no_border :
    ∀ j ∈ List.range placeholder.length, j ≠ 0 →
      placeholder.drop j ≠ placeholder.take (placeholder.length - j) := by
  decide

theorem replacePH_append_of_noOcc (rep : List Char) :
    ∀ a b : List Char, hasPH a = false →
      replacePH rep (a ++ placeholder ++ b) = a ++ rep ++ replacePH rep b := by
  intro a
  induction a with
  | nil =>
    intro b _
    simpa using replacePH_placeholder_append rep b
  | cons c a ih =>
    intro b ha
    simp only [hasPH, Bool.or_eq_false_iff] at ha
    have hnp : placeholder.isPrefixOf (c :: (a ++ placeholder ++ b)) = false := by
      by_contra hcon
      have hpre : placeholder <+: (c :: a) ++ (placeholder ++ b) := by
        rw [← List.isPrefixOf_iff_prefix]
        simpa using eq_true_of_ne_false hcon
      by_cases hm : placeholder.length ≤ (c :: a).length
      · have hca : placeholder <+: c :: a :=
          List.prefix_of_prefix_length_le hpre (List.prefix_append _ _) hm
        have : hasPH (c :: a) = true := by
          apply hasPH_of_isPrefixOf
          rw [List.isPrefixOf_iff_prefix]
          exact hca
        simp only [hasPH, ha.1, ha.2, Bool.or_self] at this
        exact Bool.false_ne_true this
      · have hm' : (c :: a).length < placeholder.length := Nat.lt_of_not_le hm
        have heq : placeholder = ((c :: a) ++ (placeholder ++ b)).take placeholder.length := by
          rw [List.prefix_iff_eq_take] at hpre
          exact hpre
        rw [List.take_append_eq_append_take,
          List.take_of_length_le (Nat.le_of_lt hm'),
          List.take_append_eq_append_take] at heq
        have hz : placeholder.length - (c :: a).length - placeholder.length = 0 := by
          omega
        rw [hz, List.take_zero, List.append_nil] at heq
        have hdropped : placeholder.drop (c :: a).length =
            placeholder.take (placeholder.length - (c :: a).length) := by
          conv_lhs => rw [heq]
          rw [List.drop_append_of_le_length (Nat.le_refl _), List.drop_length,
            List.nil_append]
        exact placeholder_no_border (c :: a).length
          (List.mem_range.mpr (by omega)) (by simp) hdropped
    rw [List.cons_append, List.cons_append, replacePH_cons, hnp]
    simp only [Bool.false_eq_true, if_false]
    rw [ih b ha.2]
    simp [List.append_assoc]

/-- C4: template rendering replaces every occurrence of the literal
placeholder with the data string and leaves the rest verbatim; the cited
template yields the cited result, a template with zero occurrences is
returned unchanged with the data dropped, and a double-occurrence
template substitutes both occurrences. -/
theorem c4_template_rendering :
    format_prompt "X" "Analyze this data: [formatted_data]" = "Analyze this data: X"
    ∧ (∀ data tmpl : String, hasPH tmpl.data = false → format_prompt data tmpl = tmpl)
    ∧ format_prompt "X" "[formatted_data] and [formatted_data]" = "X and X" := by
  refine ⟨by decide, ?_, by decide⟩
  intro data tmpl h
  show String.mk (replacePH data.data tmpl.data) = tmpl
  rw [replacePH_of_hasPH_false data.data tmpl.data h]

/-- C4 witness: the theorem applied at a template with zero placeholder
occurrences. -/
theorem c4_template_rendering_witness :
    format_prompt "X" "No placeholder anywhere" = "No placeholder anywhere" :=
  c4_template_rendering.2.1 "X" "No placeholder anywhere" (by decide)

/-- C9: substitution is one left-to-right pass that never re-scans what
it emitted: around an occurrence the placeholder-free remainder of the
template is carried verbatim, the occurrence is replaced exactly once for
every data string — also one that itself contains the placeholder — and
a data string containing the token leaves it unexpanded in the output. -/
theorem c9_single_pass_no_rescan :
    (∀ data a b : String, hasPH a.data = false → hasPH b.data = false →
      format_prompt data (a ++ "[formatted_data]" ++ b) = a ++ data ++ b)
    ∧ format_prompt "[formatted_data]!" "[formatted_data] and [formatted_data]"
      = "[formatted_data]! and [formatted_data]!" := by
  constructor
  · intro data a b ha hb
    show String.mk (replacePH data.data (a ++ "[formatted_data]" ++ b).data) = a ++ data ++ b
    have hdata : (a ++ "[formatted_data]" ++ b).data = a.data ++ placeholder ++ b.data := by
      simp [String.data_append, placeholder]
    rw [hdata, replacePH_append_of_noOcc data.data a.data b.data ha,
      replacePH_of_hasPH_false data.data b.data hb]
    show String.mk (a.data ++ data.data ++ b.data) = ⟨(a.data ++ data.data) ++ b.data⟩
    rfl
  · decide

/-- C9 witness: the single-pass equation applied at a concrete template
and a data string that itself contains the placeholder token. -/
theorem c9_single_pass_no_rescan_witness :
    format_prompt "see [formatted_data] here" ("use: " ++ "[formatted_data]" ++ " end")
      = "use: " ++ "see [formatted_data] here" ++ " end" :=
  c9_single_pass_no_rescan.1 "see [formatted_data] here" "use: " " end"
    (by decide) (by decide)

/-! ## Chunker lemmas and claims C1, C2 -/

theorem chunksOfPos_cons (k fuel : Nat) (a : α) (l : List α) :
    chunksOfPos k (fuel + 1) (a :: l) =
      (a :: l).take k :: chunksOfPos k fuel ((a :: l).drop k) := rfl

theorem chunksOfPos_ne_nil (k fuel : Nat) (l : List α) (hl : l ≠ []) (hf : 1 ≤ fuel) :
    chunksOfPos k fuel l ≠ [] := by
  cases fuel with
  | zero => omega
  | succ f =>
    cases l with
    | nil => exact absurd rfl hl
    | cons a l => simp [chunksOfPos_cons]

theorem join_chunksOfPos (k : Nat) (hk : 1 ≤ k) :
    ∀ (fuel : Nat) (l : List α), l.length ≤ fuel → (chunksOfPos k fuel l).join = l := by
  intro fuel
  induction fuel with
  | zero =>
    intro l h
    have : l = [] := List.eq_nil_of_length_eq_zero (Nat.le_zero.mp h)
    subst this
    rw [chunksOfPos_nil]
    rfl
  | succ f ih =>
    intro l h
    cases l with
    | nil => rw [chunksOfPos_nil]; rfl
    | cons a l =>
      rw [chunksOfPos_cons]
      have hdrop : ((a :: l).drop k).length ≤ f := by
        simp only [List.length_drop, List.length_cons] at h ⊢
        omega
      simp only [List.join_cons, ih _ hdrop, List.take_append_drop]

theorem length_chunksOfPos (k : Nat) (hk : 1 ≤ k) :
    ∀ (fuel : Nat) (l : List α), l.length ≤ fuel →
      (chunksOfPos k fuel l).length = (l.length + k - 1) / k := by
  intro fuel
  induction fuel with
  | zero =>
    intro l h
    have : l = [] := List.eq_nil_of_length_eq_zero (Nat.le_zero.mp h)
    subst this
    rw [chunksOfPos_nil]
    simp [Nat.div_eq_of_lt (show k - 1 < k by omega)]
  | succ f ih =>
    intro l h
    cases l with
    | nil =>
      rw [chunksOfPos_nil]
      simp [Nat.div_eq_of_lt (show k - 1 < k by omega)]
    | cons a l =>
      rw [chunksOfPos_cons]
      simp only [List.length_cons] at h
      have hdrop : ((a :: l).drop k).length ≤ f := by
        simp only [List.length_drop, List.length_cons]
        omega
      rw [List.length_cons, ih _ hdrop, List.length_drop]
      simp only [List.length_cons]
      by_cases hkn : k ≤ l.length + 1
      · have h1 : l.length + 1 - k + k - 1 = l.length := by omega
        have h2 : l.length + 1 + k - 1 = l.length + k := by omega
        rw [h1, h2, Nat.add_div_right _ (by omega : 0 < k)]
      · have h1 : l.length + 1 - k = 0 := by omega
        have h2 : (0 + k - 1) / k = 0 := Nat.div_eq_of_lt (by omega)
        have h3 : (l.length + 1 + k - 1) / k = 1 := by
          apply Nat.div_eq_of_lt_le <;> omega
        rw [h1, h2, h3]

theorem mem_chunksOfPos_bounds (k : Nat) (hk : 1 ≤ k) :
    ∀ (fuel : Nat) (l : List α), l.length ≤ fuel →
      ∀ c ∈ chunksOfPos k fuel l, 1 ≤ c.length ∧ c.length ≤ k := by
  intro fuel
  induction fuel with
  | zero =>
    intro l h
    have : l = [] := List.eq_nil_of_length_eq_zero (Nat.le_zero.mp h)
    subst this
    rw [chunksOfPos_nil]
    intro c hc
    exact absurd hc (List.not_mem_nil c)
  | succ f ih =>
    intro l h
    cases l with
    | nil =>
      rw [chunksOfPos_nil]
      intro c hc
      exact absurd hc (List.not_mem_nil c)
    | cons a l =>
      rw [chunksOfPos_cons]
      intro c hc
      rcases List.mem_cons.mp hc with hhd | htl
      · subst hhd
        constructor
        · simp only [List.length_take, List.length_cons]
          omega
        · simp only [List.length_take]
          omega
      · refine ih _ ?_ c htl
        simp only [List.length_drop, List.length_cons] at h ⊢
        omega

theorem dropLast_chunksOfPos (k : Nat) (hk : 1 ≤ k) :
    ∀ (fuel : Nat) (l : List α), l.length ≤ fuel →
      ∀ c ∈ (chunksOfPos k fuel l).dropLast, c.length = k := by
  intro fuel
  induction fuel with
  | zero =>
    intro l h
    have : l = [] := List.eq_nil_of_length_eq_zero (Nat.le_zero.mp h)
    subst this
    rw [chunksOfPos_nil]
    intro c hc
    exact absurd hc (List.not_mem_nil c)
  | succ f ih =>
    intro l h
    cases l with
    | nil =>
      rw [chunksOfPos_nil]
      intro c hc
      exact absurd hc (List.not_mem_nil c)
    | cons a l =>
      rw [chunksOfPos_cons]
      by_cases hrest : (a :: l).drop k = []
      · rw [hrest, chunksOfPos_nil]
        intro c hc
        exact absurd hc (List.not_mem_nil c)
      · have hlen : 1 ≤ ((a :: l).drop k).length := List.length_pos.mpr hrest
        have hfle : ((a :: l).drop k).length ≤ f := by
          simp only [List.length_drop, List.length_cons] at h ⊢
          omega
        have hne : chunksOfPos k f ((a :: l).drop k) ≠ [] :=
          chunksOfPos_ne_nil k f _ hrest (by omega)
        rw [List.dropLast_cons_of_ne_nil hne]
        intro c hc
        rcases List.mem_cons.mp hc with hhd | htl
        · subst hhd
          have hkn : k < (a :: l).length := by
            by_contra hcon
            exact hrest (List.drop_eq_nil_of_le (by omega))
          simp only [List.length_take]
          omega
        · exact ih _ hfle c htl

/-- C1: for a positive row bound the chunker partitions the table's rows:
the chunks concatenate back to the row sequence, every chunk before the
last holds exactly `maxRows` rows, every chunk (so in particular the
last) holds between 1 and `maxRows` rows when the table is nonempty, and
the chunk count is `⌈rowCount / maxRows⌉`, or 1 for a zero-row table. -/
theorem c1_chunker_partitions (t : Table) (maxRows : Int) (hpos : 0 < maxRows) :
    ∃ chunks, chunk_df t maxRows = .ok chunks ∧
      chunks ≠ [] ∧
      (chunks.map Table.rows).join = t.rows ∧
      (∀ c ∈ chunks.dropLast, (c.rows.length : Int) = maxRows) ∧
      (t.rows ≠ [] → ∃ lastc, chunks.getLast? = some lastc ∧
        1 ≤ lastc.rows.length ∧ (lastc.rows.length : Int) ≤ maxRows) ∧
      chunks.length = (if t.rows.length = 0 then 1
        else (t.rows.length + maxRows.toNat - 1) / maxRows.toNat) := by
  have hk : 1 ≤ maxRows.toNat := by omega
  by_cases hle : (t.rows.length : Int) ≤ maxRows
  · refine ⟨[t], ?_, by simp, by simp, by simp, ?_, ?_⟩
    · rw [chunk_df, if_pos hle]
    · intro hne
      refine ⟨t, rfl, ?_, hle⟩
      cases hrows : t.rows with
      | nil => exact absurd hrows hne
      | cons a l => simp [hrows]
    · by_cases h0 : t.rows.length = 0
      · simp [h0]
      · rw [if_neg h0, List.length_singleton]
        have hnk : t.rows.length ≤ maxRows.toNat := by omega
        symm
        apply Nat.div_eq_of_lt_le <;> omega
  · have hgt : maxRows.toNat < t.rows.length := by omega
    have hne : t.rows ≠ [] := by
      cases hrows : t.rows with
      | nil => rw [hrows] at hgt; simp at hgt
      | cons a l => simp
    have hfuel : t.rows.length ≤ t.rows.length := Nat.le_refl _
    refine ⟨(chunksOfPos maxRows.toNat t.rows.length t.rows).map
      (fun rs => { header := t.header, rows := rs }), ?_, ?_, ?_, ?_, ?_, ?_⟩
    · rw [chunk_df, if_neg hle, if_neg (by omega), if_neg (by omega)]
    · rw [Ne, List.map_eq_nil]
      exact chunksOfPos_ne_nil _ _ _ hne (by omega)
    · rw [List.map_map]
      have hcomp : (Table.rows ∘ fun rs => ({ header := t.header, rows := rs } : Table))
          = id := rfl
      rw [hcomp, List.map_id]
      exact join_chunksOfPos _ hk _ _ hfuel
    · intro c hc
      rw [← List.map_dropLast] at hc
      rcases List.mem_map.mp hc with ⟨rs, hrs, hrsc⟩
      have := dropLast_chunksOfPos _ hk _ _ hfuel rs hrs
      rw [← hrsc]
      simp only
      omega
    · intro _
      have hmapne : (chunksOfPos maxRows.toNat t.rows.length t.rows).map
          (fun rs => ({ header := t.header, rows := rs } : Table)) ≠ [] := by
        rw [Ne, List.map_eq_nil]
        exact chunksOfPos_ne_nil _ _ _ hne (by omega)
      refine ⟨_, List.getLast?_eq_getLast _ hmapne, ?_⟩
      have hmem := List.getLast_mem hmapne
      rcases List.mem_map.mp hmem with ⟨rs, hrs, hrsc⟩
      have hb := mem_chunksOfPos_bounds _ hk _ _ hfuel rs hrs
      rw [← hrsc]
      simp only
      omega
    · rw [List.length_map, length_chunksOfPos _ hk _ _ hfuel,
        if_neg (by omega)]

/-- C1 witness: a five-row table split with bound 2. -/
theorem c1_chunker_partitions_witness :
    ∃ chunks,
      chunk_df
        { header := ["A"],
          rows := [[some "a"], [some "b"], [some "c"], [some "d"], [some "e"]] }
        2 = .ok chunks ∧
      chunks ≠ [] ∧
      (chunks.map Table.rows).join
        = [[some "a"], [some "b"], [some "c"], [some "d"], [some "e"]] ∧
      (∀ c ∈ chunks.dropLast, (c.rows.length : Int) = 2) ∧
      (([[some "a"], [some "b"], [some "c"], [some "d"], [some "e"]] :
          List (List Cell)) ≠ [] → ∃ lastc, chunks.getLast? = some lastc ∧
        1 ≤ lastc.rows.length ∧ (lastc.rows.length : Int) ≤ 2) ∧
      chunks.length = (if ([[some "a"], [some "b"], [some "c"], [some "d"],
        [some "e"]] : List (List Cell)).length = 0 then 1
        else (([[some "a"], [some "b"], [some "c"], [some "d"],
          [some "e"]] : List (List Cell)).length + (2 : Int).toNat - 1)
          / (2 : Int).toNat) :=
  c1_chunker_partitions
    { header := ["A"],
      rows := [[some "a"], [some "b"], [some "c"], [some "d"], [some "e"]] }
    2 (by decide)

/-- C2: the claim requires every call with a non-positive chunk bound to
fail with an InvalidChunkSize condition; `chunk_df` performs no such
validation.  With bound −1 on a one-row table it silently returns an
empty chunk list (every row dropped, no error); with bound 0 on a
nonempty table it raises the unrelated range-step error; with bound 0 on
a zero-row table it returns the whole table as one chunk. -/
theorem c2_no_chunk_size_validation :
    chunk_df { header := ["A"], rows := [[some "x"]] } (-1) = .ok []
    ∧ chunk_df { header := ["A"], rows := [[some "x"]] } 0 = .error .rangeStepZero
    ∧ chunk_df { header := ["A"], rows := [] } 0
      = .ok [{ header := ["A"], rows := [] }] :=
  ⟨rfl, rfl, rfl⟩

/-! ## Format dispatch lemmas and claim C10 -/

/-- The three supported format names (lower case). -/
def supportedFormats : List String := ["csv", "json", "markdown"]

theorem renderDispatch_of_csv (fmt : String) (df : Table) (h : strLower fmt = "csv") :
    renderDispatch fmt df = .ok (to_csv df) := by
  simp [renderDispatch, h]

theorem renderDispatch_of_json (fmt : String) (df : Table) (h : strLower fmt = "json") :
    renderDispatch fmt df = .ok (to_json df) := by
  simp [renderDispatch, h]

theorem renderDispatch_of_markdown (fmt : String) (df : Table)
    (h : strLower fmt = "markdown") :
    renderDispatch fmt df = .ok (to_markdown df) := by
  simp [renderDispatch, h]

theorem mem_supportedFormats_iff (s : String) :
    s ∈ supportedFormats ↔ s = "csv" ∨ s = "json" ∨ s = "markdown" := by
  simp [supportedFormats]

theorem renderDispatch_ok_of_supported (fmt : String) (df : Table)
    (hs : strLower fmt ∈ supportedFormats) :
    ∃ s, renderDispatch fmt df = .ok s := by
  rcases (mem_supportedFormats_iff _).mp hs with h | h | h
  · exact ⟨_, renderDispatch_of_csv fmt df h⟩
  · exact ⟨_, renderDispatch_of_json fmt df h⟩
  · exact ⟨_, renderDispatch_of_markdown fmt df h⟩

theorem renderDispatch_congr (f₁ f₂ : String) (df : Table)
    (h : strLower f₁ = strLower f₂) (hs : strLower f₁ ∈ supportedFormats) :
    renderDispatch f₁ df = renderDispatch f₂ df := by
  rcases (mem_supportedFormats_iff _).mp hs with hc | hc | hc
  · rw [renderDispatch_of_csv f₁ df hc, renderDispatch_of_csv f₂ df (h ▸ hc)]
  · rw [renderDispatch_of_json f₁ df hc, renderDispatch_of_json f₂ df (h ▸ hc)]
  · rw [renderDispatch_of_markdown f₁ df hc, renderDispatch_of_markdown f₂ df (h ▸ hc)]

theorem strLower_of_supported (low : String) (h : low ∈ supportedFormats) :
    strLower low = low := by
  rcases (mem_supportedFormats_iff _).mp h with hc | hc | hc <;> subst hc <;> decide

theorem sheetBlocks_congr (f₁ f₂ : String) (h : strLower f₁ = strLower f₂)
    (hs : strLower f₁ ∈ supportedFormats) :
    ∀ sheets : List (String × Table), sheetBlocks f₁ sheets = sheetBlocks f₂ sheets := by
  intro sheets
  induction sheets with
  | nil => rfl
  | cons p rest ih =>
    rcases p with ⟨nm, df⟩
    simp only [sheetBlocks]
    by_cases hemp : df.isEmpty
    · simp only [hemp, if_true, ih]
    · simp only [hemp, Bool.false_eq_true, if_false,
        renderDispatch_congr f₁ f₂ df.fillna h hs, ih]

theorem sheetChunks_congr (f₁ f₂ : String) (cs : Int) (tmpl : String)
    (h : strLower f₁ = strLower f₂) (hs : strLower f₁ ∈ supportedFormats) :
    ∀ sheets : List (String × Table),
      sheetChunks f₁ cs tmpl sheets = sheetChunks f₂ cs tmpl sheets := by
  intro sheets
  induction sheets with
  | nil => rfl
  | cons p rest ih =>
    rcases p with ⟨nm, df⟩
    simp only [sheetChunks, ih]

theorem excel_to_formatted_text_congr (src : Source) (sel : Selector) (f₁ f₂ : String)
    (cs : Int) (tmpl : String) (inc : Bool)
    (h : strLower f₁ = strLower f₂) (hs : strLower f₁ ∈ supportedFormats) :
    excel_to_formatted_text src sel f₁ cs tmpl inc
      = excel_to_formatted_text src sel f₂ cs tmpl inc := by
  simp only [excel_to_formatted_text, sheetBlocks_congr f₁ f₂ h hs]

theorem excel_to_chunked_text_congr (src : Source) (sel : Selector) (f₁ f₂ : String)
    (cs : Int) (tmpl : String) (inc : Bool)
    (h : strLower f₁ = strLower f₂) (hs : strLower f₁ ∈ supportedFormats) :
    excel_to_chunked_text src sel f₁ cs tmpl inc
      = excel_to_chunked_text src sel f₂ cs tmpl inc := by
  simp only [excel_to_chunked_text, sheetChunks_congr f₁ f₂ cs tmpl h hs]

theorem sheetBlocks_ok_of_supported (fmt : String) (hs : strLower fmt ∈ supportedFormats) :
    ∀ sheets : List (String × Table), ∃ blocks, sheetBlocks fmt sheets = .ok blocks := by
  intro sheets
  induction sheets with
  | nil => exact ⟨[], rfl⟩
  | cons p rest ih =>
    rcases p with ⟨nm, df⟩
    rcases ih with ⟨blocks, hblocks⟩
    by_cases hemp : df.isEmpty
    · exact ⟨blocks, by simp [sheetBlocks, hemp, hblocks]⟩
    · rcases renderDispatch_ok_of_supported fmt df.fillna hs with ⟨s, hsok⟩
      refine ⟨("\n=== SHEET: " ++ nm ++ " ===\n" ++ s) :: blocks, ?_⟩
      simp [sheetBlocks, hemp, hsok, hblocks]

theorem chunk_df_error_eq (df : Table) (cs : Int) (e : ConvError)
    (h : chunk_df df cs = .error e) : e = .rangeStepZero := by
  rw [chunk_df] at h
  by_cases h1 : (df.rows.length : Int) ≤ cs
  · rw [if_pos h1] at h
    exact absurd h (by simp)
  · rw [if_neg h1] at h
    by_cases h2 : cs = 0
    · rw [if_pos h2] at h
      cases h
      rfl
    · rw [if_neg h2] at h
      by_cases h3 : cs < 0
      · rw [if_pos h3] at h
        exact absurd h (by simp)
      · rw [if_neg h3] at h
        exact absurd h (by simp)

theorem sheetChunks_ne_unsupported (fmt : String) (cs : Int) (tmpl : String)
    (hs : strLower fmt ∈ supportedFormats) :
    ∀ (sheets : List (String × Table)) (s : String),
      sheetChunks fmt cs tmpl sheets ≠ .error (.unsupportedFormat s) := by
  intro sheets
  induction sheets with
  | nil => intro s; simp [sheetChunks]
  | cons p rest ih =>
    rcases p with ⟨nm, df⟩
    intro s
    by_cases hemp : df.isEmpty
    · simpa [sheetChunks, hemp] using ih s
    · simp [sheetChunks, hemp]

theorem loadSheets_error_eq (src : Source) (sel : Selector) (e : ConvError)
    (h : loadSheets src sel = .error e) : ∃ nm, e = .sheetReadError nm := by
  cases sel with
  | all => exact absurd h (by simp [loadSheets])
  | one nm =>
    rw [loadSheets] at h
    cases hf : src.find nm with
    | some t => rw [hf] at h; exact absurd h (by simp)
    | none =>
      rw [hf] at h
      cases h
      exact ⟨nm, rfl⟩
  | many nms => exact absurd h (by simp [loadSheets])

theorem excel_to_formatted_text_ne_unsupported (src : Source) (sel : Selector)
    (fmt : String) (cs : Int) (tmpl : String) (inc : Bool)
    (hs : strLower fmt ∈ supportedFormats) (s : String) :
    excel_to_formatted_text src sel fmt cs tmpl inc ≠ .error (.unsupportedFormat s) := by
  rw [excel_to_formatted_text]
  cases hload : loadSheets src sel with
  | error e =>
    rcases loadSheets_error_eq src sel e hload with ⟨nm, hnm⟩
    subst hnm
    simp
  | ok all_sheets =>
    by_cases hemp : all_sheets.isEmpty
    · simp [hemp]
    · rcases sheetBlocks_ok_of_supported fmt hs all_sheets with ⟨blocks, hblocks⟩
      simp [hemp, hblocks]

theorem excel_to_chunked_text_ne_unsupported (src : Source) (sel : Selector)
    (fmt : String) (cs : Int) (tmpl : String) (inc : Bool)
    (hs : strLower fmt ∈ supportedFormats) (s : String) :
    excel_to_chunked_text src sel fmt cs tmpl inc ≠ .error (.unsupportedFormat s) := by
  rw [excel_to_chunked_text]
  cases hload : loadSheets src sel with
  | error e =>
    rcases loadSheets_error_eq src sel e hload with ⟨nm, hnm⟩
    subst hnm
    simp
  | ok all_sheets =>
    by_cases hemp : all_sheets.isEmpty
    · simp [hemp]
    · cases hsc : sheetChunks fmt cs tmpl all_sheets with
      | error e =>
        intro hcon
        apply sheetChunks_ne_unsupported fmt cs tmpl hs all_sheets s
        rw [hsc]
        simp [hemp, hsc] at hcon
        rw [hcon]
      | ok chunks =>
        simp only [hemp, Bool.false_eq_true, if_false, hsc]
        by_cases hincl : (inc && !chunks.isEmpty) = true
        · rw [if_pos hincl]
          cases firstNonEmpty all_sheets <;> simp
        · rw [if_neg hincl]
          simp

/-- C10: the format argument is matched case-insensitively: whenever its
lowercasing equals one of the three supported names, both entry points
behave identically to passing that lowercase name, and an
UnsupportedFormat failure can occur only when the lowercasing is none of
the three. -/
theorem c10_format_case_insensitive (src : Source) (sel : Selector) (fmt low : String)
    (cs : Int) (tmpl : String) (inc : Bool) :
    (low ∈ supportedFormats → strLower fmt = low →
      excel_to_formatted_text src sel fmt cs tmpl inc
        = excel_to_formatted_text src sel low cs tmpl inc
      ∧ excel_to_chunked_text src sel fmt cs tmpl inc
        = excel_to_chunked_text src sel low cs tmpl inc)
    ∧ (strLower fmt ∈ supportedFormats →
      (∀ s, excel_to_formatted_text src sel fmt cs tmpl inc
        ≠ .error (.unsupportedFormat s))
      ∧ (∀ s, excel_to_chunked_text src sel fmt cs tmpl inc
        ≠ .error (.unsupportedFormat s))) := by
  constructor
  · intro hlow heq
    have h : strLower fmt = strLower low := by
      rw [heq, strLower_of_supported low hlow]
    have hs : strLower fmt ∈ supportedFormats := by
      rw [heq]
      exact hlow
    exact ⟨excel_to_formatted_text_congr src sel fmt low cs tmpl inc h hs,
      excel_to_chunked_text_congr src sel fmt low cs tmpl inc h hs⟩
  · intro hs
    exact ⟨fun s => excel_to_formatted_text_ne_unsupported src sel fmt cs tmpl inc hs s,
      fun s => excel_to_chunked_text_ne_unsupported src sel fmt cs tmpl inc hs s⟩

/-- C10 witness: passing "CSV" to a one-sheet workbook behaves exactly
like passing "csv". -/
theorem c10_format_case_insensitive_witness :
    excel_to_formatted_text { sheets := [("S", { header := ["A"], rows := [[some "x"]] })] }
        .all "CSV" 5000 "Analyze this data: [formatted_data]" false
      = excel_to_formatted_text
        { sheets := [("S", { header := ["A"], rows := [[some "x"]] })] }
        .all "csv" 5000 "Analyze this data: [formatted_data]" false
    ∧ excel_to_chunked_text { sheets := [("S", { header := ["A"], rows := [[some "x"]] })] }
        .all "CSV" 5000 "Analyze this data: [formatted_data]" false
      = excel_to_chunked_text
        { sheets := [("S", { header := ["A"], rows := [[some "x"]] })] }
        .all "csv" 5000 "Analyze this data: [formatted_data]" false :=
  (c10_format_case_insensitive
    { sheets := [("S", { header := ["A"], rows := [[some "x"]] })] }
    .all "CSV" "csv" 5000 "Analyze this data: [formatted_data]" false).1
    (by decide) (by decide)

/-! ## Loader and emptiness lemmas, claims C6, C7 -/

theorem sheetBlocks_error_eq (fmt : String) :
    ∀ (sheets : List (String × Table)) (e : ConvError),
      sheetBlocks fmt sheets = .error e → ∃ s, e = .unsupportedFormat s := by
  intro sheets
  induction sheets with
  | nil => intro e h; exact absurd h (by simp [sheetBlocks])
  | cons p rest ih =>
    rcases p with ⟨nm, df⟩
    intro e h
    by_cases hemp : df.isEmpty
    · exact ih e (by simpa [sheetBlocks, hemp] using h)
    · cases hd : renderDispatch fmt df.fillna with
      | error e' =>
        have he' : ∃ s, e' = ConvError.unsupportedFormat s := by
          rw [renderDispatch] at hd
          by_cases h1 : strLower fmt == "csv"
          · rw [if_pos h1] at hd; exact absurd hd (by simp)
          · rw [if_neg h1] at hd
            by_cases h2 : strLower fmt == "json"
            · rw [if_pos h2] at hd; exact absurd hd (by simp)
            · rw [if_neg h2] at hd
              by_cases h3 : strLower fmt == "markdown"
              · rw [if_pos h3] at hd; exact absurd hd (by simp)
              · rw [if_neg h3] at hd
                cases hd
                exact ⟨fmt, rfl⟩
        simp [sheetBlocks, hemp, hd] at h
        rcases he' with ⟨s, hs⟩
        exact ⟨s, by rw [← h, hs]⟩
      | ok s =>
        cases hrest : sheetBlocks fmt rest with
        | error e' =>
          have := ih e' hrest
          simp [sheetBlocks, hemp, hd, hrest] at h
          rcases this with ⟨w, hw⟩
          exact ⟨w, by rw [← h, hw]⟩
        | ok blocks =>
          exact absurd h (by simp [sheetBlocks, hemp, hd, hrest])

theorem sheetChunks_error_ne_noSheets (fmt : String) (cs : Int) (tmpl : String) :
    ∀ (sheets : List (String × Table)),
      sheetChunks fmt cs tmpl sheets ≠ .error .noSheetsLoaded := by
  intro sheets
  induction sheets with
  | nil => simp [sheetChunks]
  | cons p rest ih =>
    rcases p with ⟨nm, df⟩
    by_cases hemp : df.isEmpty
    · simpa [sheetChunks, hemp] using ih
    · simp [sheetChunks, hemp]

theorem sheetBlocks_filter (fmt : String) :
    ∀ sheets : List (String × Table),
      sheetBlocks fmt (sheets.filter (fun p => !p.2.isEmpty)) = sheetBlocks fmt sheets := by
  intro sheets
  induction sheets with
  | nil => rfl
  | cons p rest ih =>
    rcases p with ⟨nm, df⟩
    by_cases hemp : df.isEmpty
    · simp [List.filter_cons, hemp, sheetBlocks, ih]
    · simp [List.filter_cons, hemp, sheetBlocks, ih]

theorem sheetChunks_filter (fmt : String) (cs : Int) (tmpl : String) :
    ∀ sheets : List (String × Table),
      sheetChunks fmt cs tmpl (sheets.filter (fun p => !p.2.isEmpty))
        = sheetChunks fmt cs tmpl sheets := by
  intro sheets
  induction sheets with
  | nil => rfl
  | cons p rest ih =>
    rcases p with ⟨nm, df⟩
    by_cases hemp : df.isEmpty
    · simp [List.filter_cons, hemp, sheetChunks, ih]
    · simp [List.filter_cons, hemp, sheetChunks, ih]

theorem firstNonEmpty_filter :
    ∀ sheets : List (String × Table),
      firstNonEmpty (sheets.filter (fun p => !p.2.isEmpty)) = firstNonEmpty sheets := by
  intro sheets
  induction sheets with
  | nil => rfl
  | cons p rest ih =>
    rcases p with ⟨nm, df⟩
    by_cases hemp : df.isEmpty
    · simp [List.filter_cons, hemp, firstNonEmpty, List.find?_cons, ih]
    · simp [List.filter_cons, hemp, firstNonEmpty, List.find?_cons]

theorem sheetBlocks_of_all_empty (fmt : String) :
    ∀ sheets : List (String × Table), (∀ p ∈ sheets, p.2.isEmpty) →
      sheetBlocks fmt sheets = .ok [] := by
  intro sheets
  induction sheets with
  | nil => intro _; rfl
  | cons p rest ih =>
    rcases p with ⟨nm, df⟩
    intro h
    have hemp : df.isEmpty := h (nm, df) (List.mem_cons_self _ _)
    simp [sheetBlocks, hemp, ih (fun q hq => h q (List.mem_cons_of_mem _ hq))]

theorem sheetChunks_of_all_empty (fmt : String) (cs : Int) (tmpl : String) :
    ∀ sheets : List (String × Table), (∀ p ∈ sheets, p.2.isEmpty) →
      sheetChunks fmt cs tmpl sheets = .ok [] := by
  intro sheets
  induction sheets with
  | nil => intro _; rfl
  | cons p rest ih =>
    rcases p with ⟨nm, df⟩
    intro h
    have hemp : df.isEmpty := h (nm, df) (List.mem_cons_self _ _)
    simp [sheetChunks, hemp, ih (fun q hq => h q (List.mem_cons_of_mem _ hq))]

theorem firstNonEmpty_of_all_empty :
    ∀ sheets : List (String × Table), (∀ p ∈ sheets, p.2.isEmpty) →
      firstNonEmpty sheets = none := by
  intro sheets
  induction sheets with
  | nil => intro _; rfl
  | cons p rest ih =>
    rcases p with ⟨nm, df⟩
    intro h
    have hemp : df.isEmpty := h (nm, df) (List.mem_cons_self _ _)
    have hrest := ih (fun q hq => h q (List.mem_cons_of_mem _ hq))
    simp only [firstNonEmpty, List.find?_cons, hemp] at hrest ⊢
    simpa using hrest

/-- C6: both entry points fail with the no-sheets condition exactly when
loading produced an empty SheetSet; a sheet that loaded with zero rows is
skipped (removing the zero-row sheets changes neither output, so no
header block is emitted for them) and never itself causes a failure —
when every loaded sheet is empty both calls still succeed, with an empty
combined text and an empty chunk sequence respectively. -/
theorem c6_no_sheets_iff_and_empty_skip (src : Source) (sel : Selector) (fmt : String)
    (cs : Int) (tmpl : String) (inc : Bool) :
    (excel_to_formatted_text src sel fmt cs tmpl inc = .error .noSheetsLoaded
      ↔ loadSheets src sel = .ok [])
    ∧ (excel_to_chunked_text src sel fmt cs tmpl inc = .error .noSheetsLoaded
      ↔ loadSheets src sel = .ok [])
    ∧ (∀ sheets, loadSheets src sel = .ok sheets →
        sheets.filter (fun p => !p.2.isEmpty) ≠ [] →
        excel_to_formatted_text src sel fmt cs tmpl inc
          = excel_to_formatted_text { sheets := sheets.filter (fun p => !p.2.isEmpty) }
            .all fmt cs tmpl inc
        ∧ excel_to_chunked_text src sel fmt cs tmpl inc
          = excel_to_chunked_text { sheets := sheets.filter (fun p => !p.2.isEmpty) }
            .all fmt cs tmpl inc)
    ∧ (∀ sheets, loadSheets src sel = .ok sheets → sheets ≠ [] →
        (∀ p ∈ sheets, p.2.isEmpty) →
        excel_to_formatted_text src sel fmt cs tmpl inc = .ok (format_prompt "" tmpl)
        ∧ excel_to_chunked_text src sel fmt cs tmpl inc = .ok []) := by
  refine ⟨?_, ?_, ?_, ?_⟩
  · cases hload : loadSheets src sel with
    | error e =>
      rcases loadSheets_error_eq src sel e hload with ⟨nm, hnm⟩
      subst hnm
      simp [excel_to_formatted_text, hload]
    | ok sheets =>
      by_cases hemp : sheets.isEmpty
      · have : sheets = [] := by simpa [List.isEmpty_iff] using hemp
        subst this
        simp [excel_to_formatted_text, hload]
      · have hne : sheets ≠ [] := by simpa [List.isEmpty_iff] using hemp
        cases hb : sheetBlocks fmt sheets with
        | error e =>
          rcases sheetBlocks_error_eq fmt sheets e hb with ⟨s, hs⟩
          subst hs
          simp [excel_to_formatted_text, hload, hemp, hb, hne]
        | ok blocks =>
          simp [excel_to_formatted_text, hload, hemp, hb, hne]
  · cases hload : loadSheets src sel with
    | error e =>
      rcases loadSheets_error_eq src sel e hload with ⟨nm, hnm⟩
      subst hnm
      simp [excel_to_chunked_text, hload]
    | ok sheets =>
      by_cases hemp : sheets.isEmpty
      · have : sheets = [] := by simpa [List.isEmpty_iff] using hemp
        subst this
        simp [excel_to_chunked_text, hload]
      · have hne : sheets ≠ [] := by simpa [List.isEmpty_iff] using hemp
        cases hsc : sheetChunks fmt cs tmpl sheets with
        | error e =>
          have hnoe : e ≠ .noSheetsLoaded := by
            intro hcon
            apply sheetChunks_error_ne_noSheets fmt cs tmpl sheets
            rw [hsc, hcon]
          simp only [excel_to_chunked_text, hload, hemp, Bool.false_eq_true, if_false, hsc]
          constructor
          · intro hcon
            cases hcon
            exact absurd rfl hnoe
          · intro hcon
            exact absurd (by injection hcon) hne
        | ok chunks =>
          simp only [excel_to_chunked_text, hload, hemp, Bool.false_eq_true, if_false, hsc]
          constructor
          · intro hcon
            by_cases hincl : (inc && !chunks.isEmpty) = true
            · rw [if_pos hincl] at hcon
              cases hfe : firstNonEmpty sheets <;> rw [hfe] at hcon <;> cases hcon
            · rw [if_neg hincl] at hcon
              cases hcon
          · intro hcon
            exact absurd (by injection hcon) hne
  · intro sheets hload hfne
    have hne : sheets ≠ [] := by
      intro hcon
      subst hcon
      simp at hfne
    have hemp : sheets.isEmpty = false := by simpa [List.isEmpty_iff] using hne
    have hemp2 : (sheets.filter (fun p => !p.2.isEmpty)).isEmpty = false := by
      simpa [List.isEmpty_iff] using hfne
    have hload2 : loadSheets { sheets := sheets.filter (fun p => !p.2.isEmpty) } .all
        = .ok (sheets.filter (fun p => !p.2.isEmpty)) := rfl
    constructor
    · simp only [excel_to_formatted_text, hload, hload2, hemp, hemp2,
        Bool.false_eq_true, if_false, sheetBlocks_filter, firstNonEmpty_filter]
    · simp only [excel_to_chunked_text, hload, hload2, hemp, hemp2,
        Bool.false_eq_true, if_false, sheetChunks_filter, firstNonEmpty_filter]
  · intro sheets hload hne hall
    have hemp : sheets.isEmpty = false := by simpa [List.isEmpty_iff] using hne
    constructor
    · simp [excel_to_formatted_text, hload, hemp, sheetBlocks_of_all_empty fmt sheets hall,
        firstNonEmpty_of_all_empty sheets hall, String.intercalate]
    · simp [excel_to_chunked_text, hload, hemp,
        sheetChunks_of_all_empty fmt cs tmpl sheets hall]

/-- C6 witness: a workbook holding one zero-row sheet and one one-row
sheet; removing the zero-row sheet leaves both outputs unchanged. -/
theorem c6_no_sheets_iff_and_empty_skip_witness :
    excel_to_formatted_text
        { sheets := [("E", { header := ["A"], rows := [] }),
          ("S", { header := ["A"], rows := [[some "x"]] })] }
        .all "csv" 5000 "Analyze this data: [formatted_data]" true
      = excel_to_formatted_text
        { sheets := [("E", ({ header := ["A"], rows := [] } : Table)),
          ("S", { header := ["A"], rows := [[some "x"]] })].filter
            (fun p => !p.2.isEmpty) }
        .all "csv" 5000 "Analyze this data: [formatted_data]" true
    ∧ excel_to_chunked_text
        { sheets := [("E", { header := ["A"], rows := [] }),
          ("S", { header := ["A"], rows := [[some "x"]] })] }
        .all "csv" 5000 "Analyze this data: [formatted_data]" true
      = excel_to_chunked_text
        { sheets := [("E", ({ header := ["A"], rows := [] } : Table)),
          ("S", { header := ["A"], rows := [[some "x"]] })].filter
            (fun p => !p.2.isEmpty) }
        .all "csv" 5000 "Analyze this data: [formatted_data]" true :=
  (c6_no_sheets_iff_and_empty_skip
    { sheets := [("E", { header := ["A"], rows := [] }),
      ("S", { header := ["A"], rows := [[some "x"]] })] }
    .all "csv" 5000 "Analyze this data: [formatted_data]" true).2.2.1
    [("E", { header := ["A"], rows := [] }),
      ("S", { header := ["A"], rows := [[some "x"]] })]
    rfl (by decide)

/-- C7: with a list selector each name loads independently — a name that
fails to read is skipped (warn-and-continue) and omitted while loading
proceeds, so the mixed valid/nonexistent selection (in either order)
loads exactly the valid sheet and both entry points behave exactly as if
only the valid name had been selected; the formatted call then succeeds
for a supported format, as the claim demands of the overall call.  The
chunked call, however, fails on the loaded non-empty sheet with the
`UnboundLocalError` of the shadowed `chunk_df` (converter.py:180/182) —
the code bug that breaks the claim's "does not fail" clause for the
second entry point. -/
theorem c7_list_selector_skips_failures (src : Source) (v x : String) (t : Table)
    (fmt : String) (cs : Int) (tmpl : String) (inc : Bool)
    (hv : src.find v = some t) (hx : src.find x = none) :
    loadSheets src (.many [v, x]) = .ok [(v, t)]
    ∧ loadSheets src (.many [x, v]) = .ok [(v, t)]
    ∧ excel_to_formatted_text src (.many [v, x]) fmt cs tmpl inc
      = excel_to_formatted_text src (.many [v]) fmt cs tmpl inc
    ∧ excel_to_chunked_text src (.many [v, x]) fmt cs tmpl inc
      = excel_to_chunked_text src (.many [v]) fmt cs tmpl inc
    ∧ (strLower fmt ∈ supportedFormats →
      ∃ out, excel_to_formatted_text src (.many [v, x]) fmt cs tmpl inc = .ok out)
    ∧ (t.isEmpty = false →
      excel_to_chunked_text src (.many [v, x]) fmt cs tmpl inc
        = .error .unboundLocalChunkDf) := by
  have h1 : loadSheets src (.many [v, x]) = .ok [(v, t)] := by
    simp [loadSheets, loadMany, dictInsert, hv, hx]
  have h2 : loadSheets src (.many [x, v]) = .ok [(v, t)] := by
    simp [loadSheets, loadMany, dictInsert, hv, hx]
  have h3 : loadSheets src (.many [v]) = .ok [(v, t)] := by
    simp [loadSheets, loadMany, dictInsert, hv]
  refine ⟨h1, h2, ?_, ?_, ?_, ?_⟩
  · simp only [excel_to_formatted_text, h1, h3]
  · simp only [excel_to_chunked_text, h1, h3]
  · intro hs
    rcases sheetBlocks_ok_of_supported fmt hs [(v, t)] with ⟨blocks, hb⟩
    simp only [excel_to_formatted_text, h1, hb]
    by_cases hemp : ([(v, t)] : List (String × Table)).isEmpty
    · simp at hemp
    · simp only [hemp, Bool.false_eq_true, if_false, hb]
      exact ⟨_, rfl⟩
  · intro htne
    simp [excel_to_chunked_text, h1, sheetChunks, htne]

/-- C7 witness: a workbook with one sheet "Good"; selecting
["Good", "Bad"] loads only "Good", the formatted call succeeds, and the
chunked call hits the shadowed-name error. -/
theorem c7_list_selector_skips_failures_witness :
    loadSheets { sheets := [("Good", { header := ["A"], rows := [[some "x"]] })] }
        (.many ["Good", "Bad"])
      = .ok [("Good", { header := ["A"], rows := [[some "x"]] })]
    ∧ loadSheets { sheets := [("Good", { header := ["A"], rows := [[some "x"]] })] }
        (.many ["Bad", "Good"])
      = .ok [("Good", { header := ["A"], rows := [[some "x"]] })]
    ∧ excel_to_formatted_text
        { sheets := [("Good", { header := ["A"], rows := [[some "x"]] })] }
        (.many ["Good", "Bad"]) "csv" 5000 "Analyze this data: [formatted_data]" false
      = excel_to_formatted_text
        { sheets := [("Good", { header := ["A"], rows := [[some "x"]] })] }
        (.many ["Good"]) "csv" 5000 "Analyze this data: [formatted_data]" false
    ∧ excel_to_chunked_text
        { sheets := [("Good", { header := ["A"], rows := [[some "x"]] })] }
        (.many ["Good", "Bad"]) "csv" 5000 "Analyze this data: [formatted_data]" false
      = excel_to_chunked_text
        { sheets := [("Good", { header := ["A"], rows := [[some "x"]] })] }
        (.many ["Good"]) "csv" 5000 "Analyze this data: [formatted_data]" false
    ∧ (strLower "csv" ∈ supportedFormats →
      ∃ out, excel_to_formatted_text
        { sheets := [("Good", { header := ["A"], rows := [[some "x"]] })] }
        (.many ["Good", "Bad"]) "csv" 5000 "Analyze this data: [formatted_data]" false
        = .ok out)
    ∧ (Table.isEmpty { header := ["A"], rows := [[some "x"]] } = false →
      excel_to_chunked_text
        { sheets := [("Good", { header := ["A"], rows := [[some "x"]] })] }
        (.many ["Good", "Bad"]) "csv" 5000 "Analyze this data: [formatted_data]" false
        = .error .unboundLocalChunkDf) :=
  c7_list_selector_skips_failures
    { sheets := [("Good", { header := ["A"], rows := [[some "x"]] })] }
    "Good" "Bad" { header := ["A"], rows := [[some "x"]] }
    "csv" 5000 "Analyze this data: [formatted_data]" false (by decide) (by decide)

/-! ## Claim C3: unsupported format -/

theorem renderDispatch_unsupported (fmt : String) (df : Table)
    (h : strLower fmt ∉ supportedFormats) :
    renderDispatch fmt df = .error (.unsupportedFormat fmt) := by
  rw [mem_supportedFormats_iff] at h
  push_neg at h
  rw [renderDispatch, if_neg (by simp [h.1]), if_neg (by simp [h.2.1]),
    if_neg (by simp [h.2.2])]

theorem sheetBlocks_unsupported (fmt : String) (h : strLower fmt ∉ supportedFormats) :
    ∀ sheets : List (String × Table), (∃ p ∈ sheets, p.2.isEmpty = false) →
      sheetBlocks fmt sheets = .error (.unsupportedFormat fmt) := by
  intro sheets
  induction sheets with
  | nil => intro hw; simp at hw
  | cons p rest ih =>
    rcases p with ⟨nm, df⟩
    intro hw
    by_cases hemp : df.isEmpty
    · have hw' : ∃ p ∈ rest, p.2.isEmpty = false := by
        rcases hw with ⟨q, hq, hqe⟩
        rcases List.mem_cons.mp hq with hqh | hqt
        · subst hqh
          rw [hemp] at hqe
          cases hqe
        · exact ⟨q, hqt, hqe⟩
      simp [sheetBlocks, hemp, ih hw']
    · simp [sheetBlocks, hemp, renderDispatch_unsupported fmt df.fillna h]

theorem chunk_df_pos_ne_nil (df : Table) (cs : Int) (hpos : 0 < cs)
    (hrows : df.rows ≠ []) :
    ∃ chunks, chunk_df df cs = .ok chunks ∧ chunks ≠ [] := by
  by_cases hle : (df.rows.length : Int) ≤ cs
  · exact ⟨[df], by rw [chunk_df, if_pos hle], by simp⟩
  · refine ⟨_, by rw [chunk_df, if_neg hle, if_neg (by omega), if_neg (by omega)], ?_⟩
    rw [Ne, List.map_eq_nil]
    exact chunksOfPos_ne_nil _ _ _ hrows
      (by
        have : df.rows.length ≠ 0 := by
          intro hcon
          exact hrows (List.eq_nil_of_length_eq_zero hcon)
        omega)

theorem sheetChunks_unbound (fmt : String) (cs : Int) (tmpl : String) :
    ∀ sheets : List (String × Table), (∃ p ∈ sheets, p.2.isEmpty = false) →
      sheetChunks fmt cs tmpl sheets = .error .unboundLocalChunkDf := by
  intro sheets
  induction sheets with
  | nil => intro hw; simp at hw
  | cons p rest ih =>
    rcases p with ⟨nm, df⟩
    intro hw
    by_cases hemp : df.isEmpty
    · have hw' : ∃ p ∈ rest, p.2.isEmpty = false := by
        rcases hw with ⟨q, hq, hqe⟩
        rcases List.mem_cons.mp hq with hqh | hqt
        · subst hqh
          rw [hemp] at hqe
          cases hqe
        · exact ⟨q, hqt, hqe⟩
      simp [sheetChunks, hemp, ih hw']
    · simp [sheetChunks, hemp]

/-- C3 counterexample: with the unsupported format "xml", a loaded,
non-empty SheetSet whose only sheet has zero rows makes both operations
succeed — templated empty output and an empty sequence — instead of
failing with UnsupportedFormat as the claim requires for every table
content; and on a one-row sheet the chunked operation fails with the
`UnboundLocalError` of the shadowed `chunk_df`, not with
UnsupportedFormat. -/
theorem c3_unsupported_format_counterexample :
    excel_to_formatted_text { sheets := [("S", { header := ["A"], rows := [] })] }
        .all "xml" 5000 "Analyze this data: [formatted_data]" false
      = .ok "Analyze this data: "
    ∧ excel_to_chunked_text { sheets := [("S", { header := ["A"], rows := [] })] }
        .all "xml" 5000 "Analyze this data: [formatted_data]" false
      = .ok []
    ∧ excel_to_chunked_text { sheets := [("S", { header := ["A"], rows := [[some "x"]] })] }
        .all "xml" 5000 "Analyze this data: [formatted_data]" false
      = .error .unboundLocalChunkDf :=
  ⟨rfl, rfl, rfl⟩

/-- C3 amended: with an unsupported format the formatted conversion
fails with UnsupportedFormat (carrying the caller's format string, with
no output returned) provided at least one loaded sheet is non-empty;
when every loaded sheet has zero rows the format is never inspected and
both calls succeed.  The chunked conversion never reaches its format
dispatch at all: on the first non-empty sheet it fails — for every
format value — with the `UnboundLocalError` of the shadowed `chunk_df`
(converter.py:180/182), never with UnsupportedFormat. -/
theorem c3_unsupported_format_amended (src : Source) (sel : Selector) (fmt : String)
    (cs : Int) (tmpl : String) (inc : Bool) (sheets : List (String × Table))
    (hload : loadSheets src sel = .ok sheets)
    (hne : ∃ p ∈ sheets, p.2.isEmpty = false)
    (hfmt : strLower fmt ∉ supportedFormats) :
    excel_to_formatted_text src sel fmt cs tmpl inc = .error (.unsupportedFormat fmt)
    ∧ excel_to_chunked_text src sel fmt cs tmpl inc = .error .unboundLocalChunkDf := by
  have hemp : sheets.isEmpty = false := by
    rcases hne with ⟨q, hq, _⟩
    cases sheets with
    | nil => exact absurd hq (List.not_mem_nil q)
    | cons a l => rfl
  constructor
  · simp [excel_to_formatted_text, hload, hemp, sheetBlocks_unsupported fmt hfmt sheets hne]
  · simp [excel_to_chunked_text, hload, hemp,
      sheetChunks_unbound fmt cs tmpl sheets hne]

/-- C3 witness for the amended claim: a one-row sheet with format "xml":
the formatted operation fails with UnsupportedFormat, the chunked one
with the shadowed-name error. -/
theorem c3_unsupported_format_amended_witness :
    excel_to_formatted_text { sheets := [("S", { header := ["A"], rows := [[some "x"]] })] }
        .all "xml" 5000 "Analyze this data: [formatted_data]" false
      = .error (.unsupportedFormat "xml")
    ∧ excel_to_chunked_text { sheets := [("S", { header := ["A"], rows := [[some "x"]] })] }
        .all "xml" 5000 "Analyze this data: [formatted_data]" false
      = .error .unboundLocalChunkDf :=
  c3_unsupported_format_amended
    { sheets := [("S", { header := ["A"], rows := [[some "x"]] })] }
    .all "xml" 5000 "Analyze this data: [formatted_data]" false
    [("S", { header := ["A"], rows := [[some "x"]] })]
    rfl ⟨("S", { header := ["A"], rows := [[some "x"]] }), by decide, by decide⟩
    (by decide)

/-! ## Claim C5: chunked conversion of a four-row sheet -/

/-- C5: the claim — matching spec section 8 and the repository's own
tests — expects the chunked conversion of a single four-row sheet with
bound 2 and a requested summary to return exactly three elements: the
templated summary, the chunk tagged 1/2 and the chunk tagged 2/2.  The
code cannot produce them: the loop target at converter.py:182 shadows
the imported `chunk_df`, so the call at converter.py:180 raises the
wrapped `UnboundLocalError` on the first non-empty sheet and the
operation returns no sequence at all. -/
theorem c5_chunked_four_rows_shadowing_bug :
    excel_to_chunked_text
      ⟨[("S", ⟨["Name"], [[some "a"], [some "b"], [some "c"], [some "d"]]⟩)]⟩
      .all "csv" 2 "Analyze this data: [formatted_data]" true
      = .error .unboundLocalChunkDf := rfl


/-! ## Claim C8: missing counts are measured before normalization -/

/-- C8: the per-column missing count reported by the summarizer is taken
from the table as loaded: every normalized table reports a zero count in
every column, the summary block the pipeline emits is computed from the
first non-empty sheet as loaded (not from its normalized copy), and on a
concrete table with one absent cell the loaded table reports count 1
where the normalized table reports 0. -/
theorem c8_missing_counts_pre_normalization :
    (∀ t : Table, (∀ r ∈ t.rows, r.length = t.header.length) →
      ∀ p ∈ (get_data_summary t.fillna).missing_values, p.2 = 0)
    ∧ (∀ (src : Source) (sel : Selector) (fmt : String) (cs : Int) (tmpl : String)
        (sheets : List (String × Table)) (t : Table),
        loadSheets src sel = .ok sheets →
        firstNonEmpty sheets = some t →
        strLower fmt ∈ supportedFormats →
        ∃ rest, excel_to_formatted_text src sel fmt cs tmpl true
          = .ok (format_prompt (format_summary (get_data_summary t) ++ "\n\n" ++ rest)
            tmpl))
    ∧ ((get_data_summary { header := ["A", "B"], rows := [[some "x", none]] }).missing_values
        = [("A", 0), ("B", 1)]
      ∧ (get_data_summary
          (Table.fillna { header := ["A", "B"], rows := [[some "x", none]] })).missing_values
        = [("A", 0), ("B", 0)]) := by
  refine ⟨?_, ?_, by decide, by decide⟩
  · intro t hrect p hp
    rcases List.mem_map.mp hp with ⟨i, hi, rfl⟩
    have hilt : i < t.header.length := List.mem_range.mp hi
    show countMissing t.fillna i = 0
    rw [countMissing, List.countP_eq_zero]
    intro a ha
    rcases List.mem_map.mp ha with ⟨r, hr, hra⟩
    have hr' : r ∈ t.rows.map
        (fun r => r.map (fun c => some (c.getD ""))) := by
      simpa [Table.fillna] using hr
    rcases List.mem_map.mp hr' with ⟨r0, hr0, hr0r⟩
    have hlen : i < r0.length := by rw [hrect r0 hr0]; exact hilt
    have ha' : a = some ((r0.getD i (some "")).getD "") := by
      rw [← hra, ← hr0r]
      rw [List.getD_eq_getElem?_getD, List.getElem?_map,
        List.getElem?_eq_getElem hlen]
      rw [List.getD_eq_getElem?_getD, List.getElem?_eq_getElem hlen]
      rfl
    rw [ha']
    simp
  · intro src sel fmt cs tmpl sheets t hload hfne hfmt
    have hne : sheets.isEmpty = false := by
      cases sheets with
      | nil => simp [firstNonEmpty] at hfne
      | cons a l => rfl
    rcases sheetBlocks_ok_of_supported fmt hfmt sheets with ⟨blocks, hb⟩
    refine ⟨String.intercalate "\n\n" blocks, ?_⟩
    simp [excel_to_formatted_text, hload, hne, hb, hfne]

/-- C8 witness: a workbook whose first sheet has a missing cell; the
summary block of the formatted output is the one computed from the sheet
as loaded. -/
theorem c8_missing_counts_pre_normalization_witness :
    ∃ rest, excel_to_formatted_text
        { sheets := [("S", { header := ["A", "B"], rows := [[some "x", none]] })] }
        .all "csv" 5000 "Analyze this data: [formatted_data]" true
      = .ok (format_prompt
          (format_summary (get_data_summary
            { header := ["A", "B"], rows := [[some "x", none]] }) ++ "\n\n" ++ rest)
          "Analyze this data: [formatted_data]") :=
  c8_missing_counts_pre_normalization.2.1
    { sheets := [("S", { header := ["A", "B"], rows := [[some "x", none]] })] }
    .all "csv" 5000 "Analyze this data: [formatted_data]"
    [("S", { header := ["A", "B"], rows := [[some "x", none]] })]
    { header := ["A", "B"], rows := [[some "x", none]] }
    rfl (by decide) (by decide)
